import Mathlib

/-!
Verification development for the thunder tracing JIT core
(`src/thunder/core/jit_ext.py` and `src/thunder/core/script/python_ir.py`).

The Python source is shallowly embedded: pure dictionary lookups and
branch chains become Lean functions; the stateful prologue synthesizer
(`unpack_inputs` and its nested `from_*` helpers) becomes an explicit
state-passing function over an `UState` record; Python exceptions become
`Except` errors.  Machine integers do not overflow in the modelled code
paths, so `Int`/`Nat` are used directly.
-/

namespace ThunderJit

/-! ## Sharp-edge policy (`SHARP_EDGES_OPTIONS`, `_sharp_edge`, `_meso_sharp_edge`) -/

/-- `SHARP_EDGES_OPTIONS` from `thunder.core.options` as consumed by
`jit_ext.py`: the tri-state sharp-edge level. -/
inductive SharpEdgesOption where
  | allow
  | warn
  | error
deriving DecidableEq, Repr

/-- Observable outcome of a sharp-edge event: an exception raised with a
message, a warning emitted with a message, or silence. -/
inductive SharpEdgeOutcome where
  | raised (msg : String)
  | warned (msg : String)
  | silent
deriving DecidableEq, Repr

/-- `_sharp_edge(desc)` from `jit_ext.py` lines 235-244: builds the
diagnostic string from `desc` and raises under ERROR, warns under WARN,
does nothing under ALLOW. -/
def sharp_edge (level : SharpEdgesOption) (desc : String) : SharpEdgeOutcome :=
  let s := desc ++ " is a sharp edge that cannot be translated to a thunder program unless using interpretation=INTERPRETATION_OPTIONS.TRANSLATE_PYTHON."
  match level with
  | .error => .raised s
  | .warn => .warned s
  | .allow => .silent

/-- `_meso_sharp_edge(desc)` from `jit_ext.py` lines 289-298: same control
structure as `_sharp_edge` with a different diagnostic suffix. -/
def meso_sharp_edge (level : SharpEdgesOption) (desc : String) : SharpEdgeOutcome :=
  let s := desc ++ " This is currently considered a sharp edge even with interpretation=INTERPRETATION_OPTIONS.TRANSLATE_PYTHON. For cases in which we are overly strict, please file an issue. Thank you!"
  match level with
  | .error => .raised s
  | .warn => .warned s
  | .allow => .silent

/-! ## Cache-option gate (`meso_thunder_interpreter`, `jit_ext.py` lines 814-824) -/

/-- `CACHE_OPTIONS` from `thunder.core.options`.

Modelled from the spec: the enum type itself is not under `src/` (only its
use is); the spec says it is "an enumerated value; the core only accepts
`CONSTANT_VALUES` or `NO_CACHING`", so the remaining members are modelled
abstractly by name. -/
inductive CacheOption where
  | constantValues
  | noCaching
  | otherOption (name : String)
deriving DecidableEq, Repr

/-- Signature descriptor of a trace (`SigInfo`): name, varargs name,
kwargs name. -/
structure SigDescriptor where
  siname : String
  varargs : Option String
  varkwargs : Option String
deriving DecidableEq, Repr

/-- The first steps of `meso_thunder_interpreter` (lines 814-824): the
cache-option gate followed by creation of the prologue and computation
trace contexts (represented by their signature descriptors; both start
with no bound symbols).  The gate raises `NotImplementedError` before
either context is created. -/
def meso_interpreter_setup (co : CacheOption) :
    Except String (SigDescriptor × Option SigDescriptor) :=
  if co = .constantValues ∨ co = .noCaching then
    .ok ({ siname := "prologue", varargs := some "args", varkwargs := some "kwargs" }, none)
  else
    .error "Only constant constraints is supported"

/-! ## NumberProxy comparison lookasides (`_lit_lookaside_map`, lines 460-477) -/

/-- Identifiers for the `NumberProxy` comparison magic methods registered
explicitly in `_lit_lookaside_map`. -/
inductive NPCompareMethod where
  | le
  | ge
deriving DecidableEq, Repr

/-- Modelled from the spec: `NumberProxy.__le__` (from
`thunder.core.proxies`, not under `src/`) computes less-or-equal on the
operands' numeric values, per the spec's symbolic primitive library of
"unary/binary arithmetic and comparison on numbers". -/
def numberProxy_le (a b : Int) : Bool := a ≤ b

/-- Modelled from the spec: `NumberProxy.__ge__` computes
greater-or-equal on the operands' numeric values. -/
def numberProxy_ge (a b : Int) : Bool := b ≤ a

/-- The semantics a comparison magic method itself computes. -/
def npMethodSem : NPCompareMethod → Int → Int → Bool
  | .le => numberProxy_le
  | .ge => numberProxy_ge

/-- The lookaside registered for each comparison method in
`_lit_lookaside_map` (`jit_ext.py` lines 471-472): the entry for
`NumberProxy.__le__` is `jit_needs_wrap(NumberProxy.__ge__)` and the
entry for `NumberProxy.__ge__` is `jit_needs_wrap(NumberProxy.__le__)`
(`jit_needs_wrap` only adjusts wrapping, not the function computed). -/
def lit_lookaside_compare : NPCompareMethod → Int → Int → Bool
  | .le => numberProxy_ge
  | .ge => numberProxy_le

/-! ## Stack-effect model (`thunder/core/script/python_ir.py`) -/

/-- `fixed_stack_effects_detail` (lines 15-125): the static
opname-to-(pop, push) table. -/
def fixed_stack_effects_detail : List (String × (Nat × Nat)) := [
  ("NOP", (0, 0)),
  ("EXTENDED_ARG", (0, 0)),
  ("POP_TOP", (1, 0)),
  ("ROT_TWO", (2, 2)),
  ("ROT_THREE", (3, 3)),
  ("ROT_FOUR", (4, 4)),
  ("DUP_TOP", (1, 2)),
  ("DUP_TOP_TWO", (2, 4)),
  ("UNARY_POSITIVE", (1, 1)),
  ("UNARY_NOT", (1, 1)),
  ("UNARY_INVERT", (1, 1)),
  ("SET_ADD", (2, 1)),
  ("LIST_APPEND", (2, 1)),
  ("MAP_ADD", (3, 1)),
  ("BINARY_POWER", (2, 1)),
  ("BINARY_MULTIPLY", (2, 1)),
  ("BINARY_MATRIX_MULTIPLY", (2, 1)),
  ("BINARY_MODULO", (2, 1)),
  ("BINARY_ADD", (2, 1)),
  ("BINARY_SUBTRACT", (2, 1)),
  ("BINARY_SUBSCR", (2, 1)),
  ("BINARY_FLOOR_DIVIDE", (2, 1)),
  ("BINARY_TRUE_DIVIDE", (2, 1)),
  ("INPLACE_FLOOR_DIVIDE", (2, 1)),
  ("INPLACE_TRUE_DIVIDE", (2, 1)),
  ("INPLACE_ADD", (2, 1)),
  ("INPLACE_SUBTRACT", (2, 1)),
  ("INPLACE_MULTIPLY", (2, 1)),
  ("INPLACE_MATRIX_MULTIPLY", (2, 1)),
  ("INPLACE_MODULO", (2, 1)),
  ("BINARY_LSHIFT", (2, 1)),
  ("BINARY_RSHIFT", (2, 1)),
  ("BINARY_AND", (2, 1)),
  ("BINARY_XOR", (2, 1)),
  ("BINARY_OR", (2, 1)),
  ("INPLACE_POWER", (2, 1)),
  ("INPLACE_LSHIFT", (2, 1)),
  ("INPLACE_RSHIFT", (2, 1)),
  ("INPLACE_AND", (2, 1)),
  ("INPLACE_XOR", (2, 1)),
  ("INPLACE_OR", (2, 1)),
  ("STORE_SUBSCR", (3, 0)),
  ("DELETE_SUBSCR", (2, 0)),
  ("GET_ITER", (1, 1)),
  ("PRINT_EXPR", (1, 0)),
  ("LOAD_BUILD_CLASS", (0, 1)),
  ("RETURN_VALUE", (1, 0)),
  ("IMPORT_STAR", (1, 0)),
  ("SETUP_ANNOTATIONS", (0, 0)),
  ("YIELD_VALUE", (1, 1)),
  ("YIELD_FROM", (2, 1)),
  ("POP_BLOCK", (0, 0)),
  ("POP_EXCEPT", (3, 0)),
  ("STORE_NAME", (1, 0)),
  ("DELETE_NAME", (0, 0)),
  ("STORE_ATTR", (2, 0)),
  ("DELETE_ATTR", (1, 0)),
  ("STORE_GLOBAL", (1, 0)),
  ("DELETE_GLOBAL", (0, 0)),
  ("LOAD_CONST", (0, 1)),
  ("LOAD_NAME", (0, 1)),
  ("LOAD_ATTR", (1, 1)),
  ("COMPARE_OP", (2, 1)),
  ("IS_OP", (2, 1)),
  ("CONTAINS_OP", (2, 1)),
  ("JUMP_IF_NOT_EXC_MATCH", (2, 0)),
  ("IMPORT_NAME", (2, 1)),
  ("IMPORT_FROM", (1, 2)),
  ("JUMP_FORWARD", (0, 0)),
  ("JUMP_ABSOLUTE", (0, 0)),
  ("POP_JUMP_IF_FALSE", (1, 0)),
  ("POP_JUMP_IF_TRUE", (1, 0)),
  ("LOAD_GLOBAL", (0, 1)),
  ("RERAISE", (3, 0)),
  ("WITH_EXCEPT_START", (7, 8)),
  ("LOAD_FAST", (0, 1)),
  ("STORE_FAST", (1, 0)),
  ("DELETE_FAST", (0, 0)),
  ("LOAD_CLOSURE", (0, 1)),
  ("LOAD_DEREF", (0, 1)),
  ("LOAD_CLASSDEREF", (0, 1)),
  ("STORE_DEREF", (1, 0)),
  ("DELETE_DEREF", (0, 0)),
  ("GET_AWAITABLE", (1, 1)),
  ("BEFORE_ASYNC_WITH", (1, 2)),
  ("GET_AITER", (1, 1)),
  ("GET_ANEXT", (1, 2)),
  ("GET_YIELD_FROM_ITER", (1, 1)),
  ("END_ASYNC_FOR", (7, 0)),
  ("LOAD_METHOD", (1, 2)),
  ("LOAD_ASSERTION_ERROR", (0, 1)),
  ("LIST_TO_TUPLE", (1, 1)),
  ("GEN_START", (1, 0)),
  ("LIST_EXTEND", (2, 1)),
  ("SET_UPDATE", (2, 1)),
  ("DICT_MERGE", (2, 1)),
  ("DICT_UPDATE", (2, 1)),
  ("COPY_DICT_WITHOUT_KEYS", (2, 2)),
  ("MATCH_CLASS", (3, 2)),
  ("GET_LEN", (1, 2)),
  ("MATCH_MAPPING", (1, 2)),
  ("MATCH_SEQUENCE", (1, 2)),
  ("MATCH_KEYS", (2, 4))]

/-- `stack_effect_detail(opname, oparg, jump)` (lines 128-173): returns
the (pop, push) pair for a supported opcode, raising
`ValueError("Invalid opname ...")` otherwise.  Bit tests on `oparg`
mirror the Python expressions (`oparg & 0x01`, `oparg >> 8`, ...). -/
def stack_effect_detail (opname : String) (oparg : Nat) (jump : Bool) :
    Except String (Nat × Nat) :=
  match fixed_stack_effects_detail.lookup opname with
  | some eff => .ok eff
  | none =>
    if opname = "ROT_N" then .ok (oparg, oparg)
    else if opname = "BUILD_TUPLE" ∨ opname = "BUILD_LIST" ∨ opname = "BUILD_SET"
        ∨ opname = "BUILD_STRING" then .ok (oparg, 1)
    else if opname = "BUILD_MAP" then .ok (2 * oparg, 1)
    else if opname = "BUILD_CONST_KEY_MAP" then .ok (oparg + 1, 1)
    else if opname = "JUMP_IF_TRUE_OR_POP" ∨ opname = "JUMP_IF_FALSE_OR_POP" then
      .ok (if jump then (1, 1) else (1, 0))
    else if opname = "SETUP_FINALLY" then .ok (if jump then (0, 6) else (0, 0))
    else if opname = "RAISE_VARARGS" then .ok (oparg, 0)
    else if opname = "CALL_FUNCTION" then .ok (oparg + 1, 1)
    else if opname = "CALL_METHOD" then .ok (oparg + 2, 1)
    else if opname = "CALL_FUNCTION_KW" then .ok (oparg + 2, 1)
    else if opname = "CALL_FUNCTION_EX" then
      .ok (2 + (if oparg &&& 0x01 ≠ 0 then 1 else 0), 1)
    else if opname = "MAKE_FUNCTION" then
      .ok (2 + (if oparg &&& 0x01 ≠ 0 then 1 else 0) + (if oparg &&& 0x02 ≠ 0 then 1 else 0)
            + (if oparg &&& 0x04 ≠ 0 then 1 else 0) + (if oparg &&& 0x08 ≠ 0 then 1 else 0), 1)
    else if opname = "BUILD_SLICE" then .ok (oparg, 1)
    else if opname = "SETUP_ASYNC_WITH" then .ok (if jump then (1, 6) else (0, 0))
    else if opname = "FORMAT_VALUE" then .ok (if oparg &&& 0x04 ≠ 0 then (2, 1) else (1, 1))
    else if opname = "UNPACK_SEQUENCE" then .ok (1, oparg)
    else if opname = "UNPACK_EX" then .ok (1, (oparg &&& 0xFF) + (oparg >>> 8) + 1)
    else if opname = "FOR_ITER" then .ok (if jump then (1, 0) else (0, 1))
    else .error ("Invalid opname " ++ opname)

/-- The supported opcode set: the fixed table's keys together with the
arg- and jump-dependent opcodes special-cased in `stack_effect_detail`. -/
def supportedOpnames : List String :=
  fixed_stack_effects_detail.map Prod.fst ++
    ["ROT_N", "BUILD_TUPLE", "BUILD_LIST", "BUILD_SET", "BUILD_STRING",
     "BUILD_MAP", "BUILD_CONST_KEY_MAP", "JUMP_IF_TRUE_OR_POP",
     "JUMP_IF_FALSE_OR_POP", "SETUP_FINALLY", "RAISE_VARARGS",
     "CALL_FUNCTION", "CALL_METHOD", "CALL_FUNCTION_KW", "CALL_FUNCTION_EX",
     "MAKE_FUNCTION", "BUILD_SLICE", "SETUP_ASYNC_WITH", "FORMAT_VALUE",
     "UNPACK_SEQUENCE", "UNPACK_EX", "FOR_ITER"]

/-! ## Provenance data model (`ProvenanceRecord`, `PseudoInst`) -/

/-- The provenance tags (`PseudoInst` from `thunder.core.jit` plus the
host-opcode case: a record's `inst` may also be a `dis.Instruction`,
carried here by its opname). -/
inductive PseudoInst where
  | inputArgs
  | inputKwargs
  | inputFn
  | loadAttr
  | constantInst
  | binarySubscr
  | opaqueInst
  | opcode (opname : String)
deriving DecidableEq, Repr

/-- The string the synthesizer dispatches on (`jit_ext.py` lines 758-760:
`inst.opname` for a `dis.Instruction`, `inst.value` for a `PseudoInst`). -/
def PseudoInst.toName : PseudoInst → String
  | .inputArgs => "INPUT_ARGS"
  | .inputKwargs => "INPUT_KWARGS"
  | .inputFn => "INPUT_FN"
  | .loadAttr => "LOAD_ATTR"
  | .constantInst => "CONSTANT"
  | .binarySubscr => "BINARY_SUBSCR"
  | .opaqueInst => "OPAQUE"
  | .opcode s => s

/-- Literal payloads of `CONSTANT` provenance records: ints, strings,
plain functions (carried by their `__name__`), `GetSetDescriptorType`
instances (whose `__name__` is the attribute name), the specific function
`GetSetDescriptorType.__get__`, and other constants (which expose no
`__name__` attribute). -/
inductive ConstVal where
  | intV (n : Int)
  | strV (s : String)
  | func (name : String)
  | getset (attrName : String)
  | getsetGetFn
  | otherV (desc : String)
deriving DecidableEq, Repr

/-- The Python attribute access `v.__name__`: defined for functions and
descriptors, an `AttributeError` (here `none`) otherwise.
`GetSetDescriptorType.__get__.__name__` is `"__get__"`. -/
def ConstVal.pyName : ConstVal → Option String
  | .func n => some n
  | .getset a => some a
  | .getsetGetFn => some "__get__"
  | _ => none

/-- `ProvenanceRecord`: a tag, ordered inputs, and an optional literal
value (used by `CONSTANT`).  The spec's mutable `proxy` back-reference is
modelled by the synthesizer's memo table instead of a field. -/
inductive ProvenanceRecord where
  | mk : PseudoInst → List ProvenanceRecord → Option ConstVal → ProvenanceRecord
deriving Repr

def ProvenanceRecord.inst : ProvenanceRecord → PseudoInst
  | .mk i _ _ => i

def ProvenanceRecord.inputs : ProvenanceRecord → List ProvenanceRecord
  | .mk _ l _ => l

def ProvenanceRecord.value : ProvenanceRecord → Option ConstVal
  | .mk _ _ v => v

mutual
/-- Structural equality of provenance records (the spec: "Equality is
structural", "records are value-equal when structurally equal"). -/
def prBeq : ProvenanceRecord → ProvenanceRecord → Bool
  | .mk i1 l1 v1, .mk i2 l2 v2 => i1 == i2 && prListBeq l1 l2 && v1 == v2
def prListBeq : List ProvenanceRecord → List ProvenanceRecord → Bool
  | [], [] => true
  | a :: as, b :: bs => prBeq a b && prListBeq as bs
  | _, _ => false
end

mutual
/-- `collect_provenance_inst(pr)` (`jit_ext.py` lines 568-577): the set of
tag names in the transitive closure of a record, modelled as a list whose
membership is the set. -/
def collect_provenance_inst : ProvenanceRecord → List String
  | .mk i l _ => i.toName :: collect_provenance_inst_list l
def collect_provenance_inst_list : List ProvenanceRecord → List String
  | [] => []
  | a :: as => collect_provenance_inst a ++ collect_provenance_inst_list as
end

/-- `safe_provenance_inst` (`jit_ext.py` lines 580-587). -/
def safe_provenance_inst : List String :=
  ["INPUT_ARGS", "INPUT_KWARGS", "INPUT_FN", "LOAD_ATTR", "CONSTANT", "BINARY_SUBSCR"]

/-- `collect_provenance_inst(provenance) - safe_provenance_inst` is empty:
every collected tag is in the safe set. -/
def provenanceSafe (pr : ProvenanceRecord) : Bool :=
  (collect_provenance_inst pr).all (fun i => i ∈ safe_provenance_inst)

/-! ## Proxies, bound symbols and traces -/

/-- The metadata a `TensorProxy` carries (shape, device, dtype,
requires-grad); strides are never consulted by the modelled code. -/
structure TensorMeta where
  shape : List Int
  device : String
  dtype : String
  requires_grad : Bool
deriving DecidableEq, Repr

/-- The proxy variants: `TensorProxy` with metadata, `NumberProxy`,
`StringProxy`, and plain `Proxy` (as minted for unpacked containers). -/
inductive ProxyKind where
  | tensor (m : TensorMeta)
  | number
  | stringKind
  | plain
deriving DecidableEq, Repr

/-- A proxy: unique name, variant, optional provenance history.
`Variable` (the dedup key of `get_computation_inputs`) compares proxies
by name, so name equality is proxy identity here. -/
structure Proxy where
  name : String
  kind : ProxyKind
  history : Option ProvenanceRecord
deriving Repr

/-- Argument/result values flowing through bound symbols: proxies,
int/str literals (as inlined by `from_constant`), shape tuples, booleans,
and tuples of proxies (the prologue return value). -/
inductive UVal where
  | proxyV (p : Proxy)
  | intV (n : Int)
  | strV (s : String)
  | shapeV (dims : List Int)
  | boolV (b : Bool)
  | tupleV (elems : List Proxy)
deriving Repr

/-- The primitive identifiers appearing in the modelled traces: the
unpack family, the guard family, the return primitive, and generic
computation operations. -/
inductive Prim where
  | unpack_trivial
  | unpack_function_obj
  | unpack_attr
  | unpack_getitem
  | assert_tensor_metadata
  | check_tensor_shape_and_metadata
  | check_string_value
  | check_number_type_and_value
  | python_return
  | op (name : String)
deriving DecidableEq, Repr

/-- `BoundSymbol`: an invocation record appended to a trace. -/
structure BoundSymbol where
  prim : Prim
  args : List UVal
  output : Option UVal
deriving Repr

/-- `bsym.flat_variableified_proxy_args`: the proxies appearing in a
bound symbol's flattened arguments. -/
def BoundSymbol.flatProxyArgs (b : BoundSymbol) : List Proxy :=
  b.args.flatMap (fun a =>
    match a with
    | .proxyV p => [p]
    | .tupleV ps => ps
    | _ => [])

/-- `v not in inputs_set` test of `get_computation_inputs`, with
`Variable` equality (by proxy name). -/
def seenName (acc : List Proxy) (p : Proxy) : Bool :=
  acc.any (fun q => q.name = p.name)

/-- `get_computation_inputs(computation_trace)` (`jit_ext.py` lines
636-646): walk the bound symbols in order; collect each proxy argument
with non-null history the first time its variable is seen. -/
def get_computation_inputs (trace : List BoundSymbol) : List Proxy :=
  trace.foldl (fun acc b =>
    b.flatProxyArgs.foldl (fun acc2 p =>
      if p.history.isSome then
        if seenName acc2 p then acc2 else acc2 ++ [p]
      else acc2) acc) []

/-! ## The prologue synthesizer (`unpack_inputs`, lines 649-808) -/

/-- Errors raised during prologue synthesis: `NotImplementedError` with a
message, other Python exceptions by kind (`AttributeError`,
`AssertionError`, `ValueError`, `IndexError`), and fuel exhaustion of the
embedding (the Python recursion has no such case; theorems quantify over
sufficient fuel). -/
inductive UErr where
  | notImplemented (msg : String)
  | pyError (kind : String)
  | outOfFuel
deriving DecidableEq, Repr

/-- The synthesizer state: the prologue trace's bound symbols, the
provenance memo (`provenance.proxy` assignments, keyed structurally), the
prologue trace's bound names, and `already_unpacked` (keyed by proxy
name). -/
structure UState where
  syms : List BoundSymbol
  memo : List (ProvenanceRecord × UVal)
  names : List String
  already : List String
deriving Repr

/-- Lookup in the provenance memo (`hasattr(provenance, "proxy")` /
`provenance.proxy`). -/
def memoLookup (m : List (ProvenanceRecord × UVal)) (pr : ProvenanceRecord) : Option UVal :=
  match m with
  | [] => none
  | (k, v) :: rest => if prBeq k pr then some v else memoLookup rest pr

/-- The name `from_input` gives a freshly minted root proxy
(`jit_ext.py` lines 671-678). -/
def inputRootName : PseudoInst → String
  | .inputKwargs => "kwargs"
  | .inputFn => "fn"
  | _ => "args"

mutual
/-- `from_provenance` and the nested `from_input` / `from_load_attr` /
`from_constant` / `from_binary_subscr` / `from_opaque` helpers
(`jit_ext.py` lines 669-777), with `p` the proxy being unpacked.
`from_provenance_list` is the list comprehension
`[from_provenance(i, new_output=True) for i in provenance.inputs]`.
Each recursive call consumes one unit of fuel. -/
def from_provenance (p : Proxy) : Nat → ProvenanceRecord → Bool → UState → Except UErr (UVal × UState)
  | 0, _, _, _ => .error .outOfFuel
  | fuel + 1, pr, new_output, st =>
    match memoLookup st.memo pr with
    | some v => .ok (v, st)
    | none =>
      let body : Except UErr (UVal × UState) :=
        match pr.inst.toName with
        | "INPUT_ARGS" | "INPUT_KWARGS" | "INPUT_FN" =>
          let output : Proxy :=
            if new_output then { name := inputRootName pr.inst, kind := .plain, history := none } else p
          let bsym : BoundSymbol :=
            if pr.inst.toName = "INPUT_FN" then
              { prim := .unpack_function_obj, args := [.proxyV output], output := some (.proxyV output) }
            else
              { prim := .unpack_trivial, args := [.proxyV output], output := some (.proxyV output) }
          .ok (.proxyV output, { st with syms := st.syms ++ [bsym] })
        | "LOAD_ATTR" =>
          match from_provenance_list p fuel pr.inputs st with
          | .error e => .error e
          | .ok (vs, st1) =>
            match vs with
            | v0 :: v1 :: _ =>
              let output : Proxy := if new_output then { name := "obj", kind := .plain, history := none } else p
              .ok (.proxyV output,
                { st1 with syms := st1.syms ++
                    [{ prim := .unpack_attr, args := [v0, v1], output := some (.proxyV output) }] })
            | _ => .error (.pyError "IndexError")
        | "CONSTANT" =>
          match pr.value with
          | some (.intV n) => .ok (.intV n, st)
          | some (.strV s) => .ok (.strV s, st)
          | _ => .error (.notImplemented "constant of unsupported type")
        | "BINARY_SUBSCR" =>
          match from_provenance_list p fuel pr.inputs st with
          | .error e => .error e
          | .ok (vs, st1) =>
            match vs with
            | [obj, idx] =>
              let output : Proxy := if new_output then { name := "subscr", kind := .plain, history := none } else p
              match idx with
              | .intV n =>
                .ok (.proxyV output,
                  { st1 with syms := st1.syms ++
                      [{ prim := .unpack_getitem, args := [obj, .intV n], output := some (.proxyV output) }] })
              | .strV s =>
                .ok (.proxyV output,
                  { st1 with syms := st1.syms ++
                      [{ prim := .unpack_getitem, args := [obj, .strV s], output := some (.proxyV output) }] })
              | _ => .error (.notImplemented "Unpacking from BINARY_SUBSCR with elaborate inputs")
            | _ => .error (.pyError "ValueError")
        | "OPAQUE" =>
          match pr.inputs with
          | fn :: args :: _ =>
            if fn.inst ≠ .constantInst then
              .error (.notImplemented "unpacking from nonconstant opaque function")
            else
              match fn.value with
              | none => .error (.pyError "AttributeError")
              | some v =>
                match v.pyName with
                | none => .error (.pyError "AttributeError")
                | some nm =>
                  if nm = "__getitem__" then
                    match args.inputs with
                    | [idx, obj] =>
                      from_provenance p fuel (.mk .binarySubscr [obj, idx] none) new_output st
                    | _ => .error (.pyError "ValueError")
                  else if v = .getsetGetFn then
                    match args.inputs with
                    | [_, objRec, descRec] =>
                      match descRec.inst, descRec.value with
                      | .constantInst, some (.getset attrName) =>
                        from_provenance p fuel
                          (.mk .loadAttr [objRec, .mk .constantInst [] (some (.strV attrName))] none)
                          false st
                      | _, _ => .error (.pyError "AssertionError")
                    | _ => .error (.pyError "AssertionError")
                  else .error (.notImplemented "unpacking from OPAQUE")
          | _ => .error (.pyError "IndexError")
        | other => .error (.notImplemented ("Unpacking from " ++ other))
      match body with
      | .error e => .error e
      | .ok (res, st1) => .ok (res, { st1 with memo := (pr, res) :: st1.memo })
def from_provenance_list (p : Proxy) : Nat → List ProvenanceRecord → UState → Except UErr (List UVal × UState)
  | _, [], st => .ok ([], st)
  | 0, _ :: _, _ => .error .outOfFuel
  | fuel + 1, a :: as, st =>
    match from_provenance p fuel a true st with
    | .error e => .error e
    | .ok (v, st1) =>
      match from_provenance_list p fuel as st1 with
      | .error e => .error e
      | .ok (vs, st2) => .ok (v :: vs, st2)
end

/-- `unpack(v)` (`jit_ext.py` lines 654-792): asserts non-null history,
short-circuits on `already_unpacked`, binds the proxy's name, runs
`from_provenance` on the history, records the proxy as unpacked, and for
a `TensorProxy` emits the `assert_tensor_metadata` guard immediately
after. -/
def unpack (fuel : Nat) (p : Proxy) (st : UState) : Except UErr (Proxy × UState) :=
  match p.history with
  | none => .error (.pyError "AssertionError")
  | some hist =>
    if p.name ∈ st.already then .ok (p, st)
    else
      match from_provenance p fuel hist false
          (if p.name ∈ st.names then st else { st with names := st.names ++ [p.name] }) with
      | .error e => .error e
      | .ok (_, st1) =>
        match p.kind with
        | .tensor m =>
          .ok (p,
            { st1 with
              already := st1.already ++ [p.name],
              syms := st1.syms ++
                [{ prim := .assert_tensor_metadata,
                   args := [.proxyV p, .shapeV m.shape, .strV m.device, .strV m.dtype,
                            .boolV m.requires_grad],
                   output := none }] })
        | _ => .ok (p, { st1 with already := st1.already ++ [p.name] })

/-- The `for v in inputs: prologue_outputs.append(unpack(v))` loop of
`unpack_inputs` (lines 794-796). -/
def unpack_loop (fuel : Nat) : List Proxy → UState → Except UErr (List Proxy × UState)
  | [], st => .ok ([], st)
  | v :: rest, st =>
    match unpack fuel v st with
    | .error e => .error e
    | .ok (p, st1) =>
      match unpack_loop fuel rest st1 with
      | .error e => .error e
      | .ok (ps, st2) => .ok (p :: ps, st2)

/-- The guard primitives recorded as constraints (`clang.check_*`). -/
inductive GuardPrim where
  | check_tensor_shape_and_metadata
  | check_string_value
  | check_number_type_and_value
deriving DecidableEq, Repr

def GuardPrim.toPrim : GuardPrim → Prim
  | .check_tensor_shape_and_metadata => .check_tensor_shape_and_metadata
  | .check_string_value => .check_string_value
  | .check_number_type_and_value => .check_number_type_and_value

/-- A recorded constraint `(guard_primitive, *args)` from
`MesoCtx.add_constraint`. -/
structure Constraint where
  prim : GuardPrim
  args : List UVal
deriving Repr

/-- `for a in args: if isinstance(a, Proxy): unpack(a)` (lines 801-803). -/
def unpack_constraint_args (fuel : Nat) : List UVal → UState → Except UErr UState
  | [], st => .ok st
  | a :: rest, st =>
    match a with
    | .proxyV p =>
      match unpack fuel p st with
      | .error e => .error e
      | .ok (_, st1) => unpack_constraint_args fuel rest st1
    | _ => unpack_constraint_args fuel rest st

/-- The constraint replay loop of `unpack_inputs` (lines 800-804):
unpack each proxy argument, then emit the guard primitive. -/
def constraint_loop (fuel : Nat) : List Constraint → UState → Except UErr UState
  | [], st => .ok st
  | c :: rest, st =>
    match unpack_constraint_args fuel c.args st with
    | .error e => .error e
    | .ok st1 =>
      constraint_loop fuel rest
        { st1 with syms := st1.syms ++ [{ prim := c.prim.toPrim, args := c.args, output := none }] }

/-- `unpack_inputs(ctx, prologue_trace, inputs)` (lines 649-808): unpack
every input, replay the constraints, and emit
`prims.python_return(prologue_outputs)` as the final bound symbol. -/
def unpack_inputs (fuel : Nat) (constraints : List Constraint) (inputs : List Proxy)
    (st : UState) : Except UErr (List Proxy × UState) :=
  match unpack_loop fuel inputs st with
  | .error e => .error e
  | .ok (outs, st1) =>
    match constraint_loop fuel constraints st1 with
    | .error e => .error e
    | .ok st2 =>
      .ok (outs, { st2 with syms := st2.syms ++
        [{ prim := .python_return, args := [.tupleV outs], output := none }] })

/-! ## The prologue-hoist pass (`meso_thunder_interpreter`, lines 850-856) -/

/-- The Python slice `l[-n:]` for `n ≥ 0`; note `l[-0:]` is all of `l`. -/
def pysliceLast {α : Type} (l : List α) (n : Nat) : List α :=
  if n = 0 then l else l.drop (l.length - n)

/-- The Python slice `l[:-n]` for `n ≥ 0`; note `l[:-0]` is empty. -/
def pysliceDropLast {α : Type} (l : List α) (n : Nat) : List α :=
  if n = 0 then [] else l.take (l.length - n)

/-- The `unpack_trivial` bound symbol appended for a prologue output `p`
by `prims.unpack_trivial(p)` (line 853). -/
def unpackTrivialSym (p : Proxy) : BoundSymbol :=
  { prim := .unpack_trivial, args := [.proxyV p], output := some (.proxyV p) }

/-- The prologue-hoist pass (`jit_ext.py` lines 850-856): append one
`unpack_trivial` bound symbol per prologue output at the end of the
computation trace, then set the bound-symbol list to
`bsyms[-len(prologue_outputs):] + bsyms[:-len(prologue_outputs)]`. -/
def hoist_unpacks (bsyms : List BoundSymbol) (prologue_outputs : List Proxy) : List BoundSymbol :=
  let appended := bsyms ++ prologue_outputs.map unpackTrivialSym
  let n := prologue_outputs.length
  pysliceLast appended n ++ pysliceDropLast appended n

/-! ## The wrap callback (`_lit_wrap_callback`, lines 590-625, and `MesoCtx.proxify`, lines 322-343) -/

/-- The kinds of basic containers the wrap callback passes through
(`type(uvalue) in (tuple, list, dict, CellType, ModuleType, set)`). -/
inductive ContainerKind where
  | tupleC
  | listC
  | dictC
  | cellC
  | moduleC
  | setC
deriving DecidableEq, Repr

/-- The runtime values the wrap callback can receive (excluding proxies
already registered, which the callback's `isinstance` guards skip):
tensors with their metadata, numbers (the callback's control flow is
identical for int/float/complex, so an integer payload represents them),
strings, callables, basic containers, and values of any other type. -/
inductive RuntimeVal where
  | tensorV (m : TensorMeta)
  | numV (n : Int)
  | strRV (s : String)
  | callableV (name : String)
  | containerV (k : ContainerKind)
  | otherRV (typeName : String)
deriving DecidableEq, Repr

/-- `callable(uvalue)` on the modelled runtime values. -/
def isCallableRV : RuntimeVal → Bool
  | .callableV _ => true
  | _ => false

/-- `type(uvalue) in (tuple, list, dict, CellType, ModuleType, set)`. -/
def isBasicContainer : RuntimeVal → Bool
  | .containerV _ => true
  | _ => false

/-- A wrapped value as seen by the wrap callback: the concrete value and
its provenance. -/
structure WrappedValue where
  wvalue : RuntimeVal
  provenance : ProvenanceRecord
deriving Repr

/-- The proxy variant `proxy(v, ...)` creates for a runtime value. -/
def proxyKindOf : RuntimeVal → ProxyKind
  | .tensorV m => .tensor m
  | .numV _ => .number
  | .strRV _ => .stringKind
  | _ => .plain

/-- `MesoCtx.proxify(val, name=name, history=history)` (`jit_ext.py`
lines 322-343) on the values the wrap callback passes it (never
`Py_NULL`, a wrapped constant, or an existing proxy there): calls
`proxy(val, name=name, history=history)`, minting a fresh name from the
monotonic counter when none is supplied. -/
def MesoCtx_proxify (fresh : Nat) (val : RuntimeVal) (nameArg : Option String)
    (history : ProvenanceRecord) : Proxy :=
  { name := nameArg.getD ("p" ++ toString fresh),
    kind := proxyKindOf val,
    history := some history }

/-- The observable effects of one `_lit_wrap_callback` invocation: the
proxy registered on the wrapped value (if any), the constraints added to
the context (in order), and the sharp-edge event raised (if any, by its
description). -/
structure WrapResult where
  registeredProxy : Option Proxy
  newConstraints : List Constraint
  sharpEdgeDesc : Option String
deriving Repr

/-- `_lit_wrap_callback(value)` (`jit_ext.py` lines 590-625): tensors are
always proxied and guarded; values of `CONSTANT` provenance, callables
and basic containers pass; non-proxy numbers and strings are proxied and
guarded when every provenance tag is safe-for-guarding and raise a
sharp-edge otherwise; all other values raise a sharp-edge.
The sharp-edge descriptions keep the interpolated type name and elide
the provenance repr. -/
def lit_wrap_callback (fresh : Nat) (w : WrappedValue) : WrapResult :=
  match w.wvalue with
  | .tensorV m =>
    let p := MesoCtx_proxify fresh (.tensorV m) none w.provenance
    { registeredProxy := some p,
      newConstraints := [{ prim := .check_tensor_shape_and_metadata, args := [.proxyV p] }],
      sharpEdgeDesc := none }
  | uvalue =>
    if w.provenance.inst = .constantInst then
      { registeredProxy := none, newConstraints := [], sharpEdgeDesc := none }
    else if isCallableRV uvalue then
      { registeredProxy := none, newConstraints := [], sharpEdgeDesc := none }
    else if isBasicContainer uvalue then
      { registeredProxy := none, newConstraints := [], sharpEdgeDesc := none }
    else
      match uvalue with
      | .numV n =>
        if provenanceSafe w.provenance then
          let p := MesoCtx_proxify fresh (.numV n) none w.provenance
          { registeredProxy := some p,
            newConstraints := [{ prim := .check_number_type_and_value, args := [.proxyV p, .intV n] }],
            sharpEdgeDesc := none }
        else
          { registeredProxy := none, newConstraints := [],
            sharpEdgeDesc := some "We are using a (non-const) value of type int, which is not identified as an input." }
      | .strRV s =>
        if provenanceSafe w.provenance then
          let p := MesoCtx_proxify fresh (.strRV s) none w.provenance
          { registeredProxy := some p,
            newConstraints := [{ prim := .check_string_value, args := [.proxyV p, .strV s] }],
            sharpEdgeDesc := none }
        else
          { registeredProxy := none, newConstraints := [],
            sharpEdgeDesc := some "We are using a (non-const) value of type str, which is not identified as an input." }
      | _ =>
        { registeredProxy := none, newConstraints := [],
          sharpEdgeDesc := some "We are using a (non-const) value of unknown type, which may or may not be safe." }

/-! ## Specification-side list functions for the used-input order -/

/-- Keep each proxy's first occurrence (by name), dropping later
duplicates: the spec's "each element occurring once, in the order of
their first use". -/
def dedup_first_by_name : List Proxy → List Proxy
  | [] => []
  | p :: rest => p :: dedup_first_by_name (rest.filter (fun q => q.name ≠ p.name))
  termination_by l => l.length
  decreasing_by exact Nat.lt_succ_of_le (List.length_filter_le _ rest)

/-- The proxies appearing as computation-trace bound-symbol arguments
with non-null history, in trace order, with duplicates. -/
def used_input_proxies (trace : List BoundSymbol) : List Proxy :=
  trace.flatMap (fun b => b.flatProxyArgs.filter (fun p => p.history.isSome))

/-- The accumulating dedup underlying `get_computation_inputs`, with
remaining worklist `l` and accumulator `acc` (proof-side restatement). -/
def dedupNew (acc : List Proxy) : List Proxy → List Proxy
  | [] => []
  | p :: rest =>
    if seenName acc p then dedupNew acc rest else p :: dedupNew (acc ++ [p]) rest

/-! ## Witness inputs -/

/-- An `INPUT_ARGS` root provenance record. -/
def wProvArgs : ProvenanceRecord := .mk .inputArgs [] none

/-- A number proxy unpacked directly from the args root. -/
def wProxyA : Proxy := { name := "a", kind := .number, history := some wProvArgs }

/-- An intra-trace output proxy (null history). -/
def wOut1 : Proxy := { name := "o", kind := .number, history := none }

/-- A small computation trace using `wProxyA` twice. -/
def wTraceC1 : List BoundSymbol :=
  [{ prim := .op "add", args := [.proxyV wProxyA, .proxyV wProxyA], output := some (.proxyV wOut1) },
   { prim := .python_return, args := [.proxyV wOut1], output := none }]

/-- The empty synthesizer state (fresh prologue trace). -/
def wSt0 : UState := { syms := [], memo := [], names := [], already := [] }

/-- The state `unpack_inputs` reaches on `wTraceC1`'s used inputs. -/
def wStC1 : UState :=
  { syms := [{ prim := .unpack_trivial, args := [.proxyV wProxyA], output := some (.proxyV wProxyA) },
             { prim := .python_return, args := [.tupleV [wProxyA]], output := none }],
    memo := [(wProvArgs, .proxyV wProxyA)],
    names := ["a"],
    already := ["a"] }

/-- A tensor proxy unpacked directly from the args root. -/
def wProxyT : Proxy :=
  { name := "t", kind := .tensor { shape := [4, 4], device := "cpu", dtype := "float32", requires_grad := false },
    history := some wProvArgs }

/-- The state `unpack` reaches on the tensor input `wProxyT`. -/
def wStT : UState :=
  { syms := [{ prim := .unpack_trivial, args := [.proxyV wProxyT], output := some (.proxyV wProxyT) },
             { prim := .assert_tensor_metadata,
               args := [.proxyV wProxyT, .shapeV [4, 4], .strV "cpu", .strV "float32", .boolV false],
               output := none }],
    memo := [(wProvArgs, .proxyV wProxyT)],
    names := ["t"],
    already := ["t"] }

/-- A one-symbol trace for the hoist counterexample. -/
def wHoistTrace : List BoundSymbol :=
  [{ prim := .python_return, args := [.proxyV wOut1], output := none }]

def wHoistOuts : List Proxy := [wProxyA]

/-- Constant-`__getitem__` callee record for the opaque rewrite. -/
def wFnGetitem : ProvenanceRecord := .mk .constantInst [] (some (.func "__getitem__"))

def wIdxRec : ProvenanceRecord := .mk .constantInst [] (some (.intV 0))

/-- An opaque-call argument record holding `(idx, obj)`. -/
def wArgsRec : ProvenanceRecord := .mk (.opcode "BUILD_TUPLE") [wIdxRec, wProvArgs] none

/-- `OPAQUE` record of a constant `__getitem__` call. -/
def wOpaqueGetitem : ProvenanceRecord := .mk .opaqueInst [wFnGetitem, wArgsRec] none

/-- `OPAQUE` record of a constant callee that is neither `__getitem__`
nor the descriptor `__get__`. -/
def wOpaqueBad : ProvenanceRecord :=
  .mk .opaqueInst [.mk .constantInst [] (some (.func "print")), wArgsRec] none

/-- A wrapped constant number. -/
def wConstNum : WrappedValue :=
  { wvalue := .numV 5, provenance := .mk .constantInst [] (some (.intV 5)) }

/-- A wrapped number reached through an attribute load (safe, non-const). -/
def wAttrNum : WrappedValue :=
  { wvalue := .numV 7,
    provenance := .mk .loadAttr [wProvArgs, .mk .constantInst [] (some (.strV "dim"))] none }

/-- A wrapped number with a host-opcode tag in its provenance (unsafe). -/
def wOpcodeNum : WrappedValue :=
  { wvalue := .numV 7, provenance := .mk (.opcode "BINARY_ADD") [wProvArgs] none }

/-- A wrapped constant string. -/
def wConstStr : WrappedValue :=
  { wvalue := .strRV "cpu", provenance := .mk .constantInst [] (some (.strV "cpu")) }

/-- A wrapped tensor with constant provenance. -/
def wConstTensor : WrappedValue :=
  { wvalue := .tensorV { shape := [2], device := "cpu", dtype := "float32", requires_grad := false },
    provenance := .mk .constantInst [] none }

/-! ## Helper lemmas -/

lemma lookup_none_of_not_mem_keys {α : Type} (l : List (String × α)) (k : String)
    (h : k ∉ l.map Prod.fst) : l.lookup k = none := by
  induction l with
  | nil => rfl
  | cons a as ih =>
    simp only [List.map_cons, List.mem_cons, not_or] at h
    have hne : (k == a.1) = false := beq_eq_false_iff_ne.mpr h.1
    simp only [List.lookup, hne]
    exact ih h.2

lemma mem_keys_lookup {α : Type} (l : List (String × α)) (k : String)
    (h : k ∈ l.map Prod.fst) : ∃ v, l.lookup k = some v := by
  induction l with
  | nil => simp at h
  | cons a as ih =>
    simp only [List.map_cons, List.mem_cons] at h
    by_cases hk : k = a.1
    · have hb : (k == a.1) = true := beq_iff_eq.mpr hk
      simp only [List.lookup, hb]
      exact ⟨a.2, rfl⟩
    · have hb : (k == a.1) = false := beq_eq_false_iff_ne.mpr hk
      simp only [List.lookup, hb]
      exact ih (h.resolve_left hk)

/-! ## Claim theorems -/

/-- C7: for every sharp-edge event (both `_sharp_edge` and
`_meso_sharp_edge`), under ERROR an error is raised whose diagnostic
starts with the offending construct's description, under WARN a warning
is emitted with the same diagnostic and interpretation continues, and
under ALLOW nothing is raised or emitted. -/
theorem sharp_edge_policy_levels (desc : String) :
    (sharp_edge .error desc =
      .raised (desc ++ " is a sharp edge that cannot be translated to a thunder program unless using interpretation=INTERPRETATION_OPTIONS.TRANSLATE_PYTHON.")
      ∧ meso_sharp_edge .error desc =
      .raised (desc ++ " This is currently considered a sharp edge even with interpretation=INTERPRETATION_OPTIONS.TRANSLATE_PYTHON. For cases in which we are overly strict, please file an issue. Thank you!"))
  ∧ (sharp_edge .warn desc =
      .warned (desc ++ " is a sharp edge that cannot be translated to a thunder program unless using interpretation=INTERPRETATION_OPTIONS.TRANSLATE_PYTHON.")
      ∧ meso_sharp_edge .warn desc =
      .warned (desc ++ " This is currently considered a sharp edge even with interpretation=INTERPRETATION_OPTIONS.TRANSLATE_PYTHON. For cases in which we are overly strict, please file an issue. Thank you!"))
  ∧ (sharp_edge .allow desc = .silent ∧ meso_sharp_edge .allow desc = .silent) :=
  ⟨⟨rfl, rfl⟩, ⟨rfl, rfl⟩, rfl, rfl⟩

/-- C8: the entry point rejects every cache option other than
`CONSTANT_VALUES` and `NO_CACHING` with `NotImplementedError` before
creating the prologue and computation trace contexts, and proceeds
(creating both contexts, the prologue with signature `(*args, **kwargs)`)
with either accepted option. -/
theorem cache_option_gate (co : CacheOption) :
    (co = .constantValues ∨ co = .noCaching →
      meso_interpreter_setup co =
        .ok ({ siname := "prologue", varargs := some "args", varkwargs := some "kwargs" }, none))
  ∧ (co ≠ .constantValues ∧ co ≠ .noCaching →
      meso_interpreter_setup co = .error "Only constant constraints is supported") := by
  constructor
  · intro h
    simp [meso_interpreter_setup, h]
  · intro h
    simp [meso_interpreter_setup, h.1, h.2]

/-- Witness for `cache_option_gate` at `SYMBOLIC_VALUES` (rejected) and
`CONSTANT_VALUES` (accepted). -/
theorem cache_option_gate_witness :
    ((CacheOption.otherOption "SYMBOLIC_VALUES" ≠ .constantValues
        ∧ CacheOption.otherOption "SYMBOLIC_VALUES" ≠ .noCaching)
      ∧ meso_interpreter_setup (.otherOption "SYMBOLIC_VALUES") =
          .error "Only constant constraints is supported")
  ∧ ((CacheOption.constantValues = .constantValues ∨ CacheOption.constantValues = .noCaching)
      ∧ meso_interpreter_setup .constantValues =
          .ok ({ siname := "prologue", varargs := some "args", varkwargs := some "kwargs" }, none)) :=
  ⟨⟨by decide, (cache_option_gate (.otherOption "SYMBOLIC_VALUES")).2 (by decide)⟩,
   ⟨Or.inl rfl, (cache_option_gate .constantValues).1 (Or.inl rfl)⟩⟩

/-- C2 (divergence): the lookasides registered for the `NumberProxy`
comparison methods do not compute the methods themselves: the `__le__`
entry computes `__ge__` and vice versa, so interpreting `1 <= 2` yields
`false` while `(1).__le__(2)` is `true`. -/
theorem numberproxy_comparison_lookasides_swapped :
    lit_lookaside_compare .le = numberProxy_ge
  ∧ lit_lookaside_compare .ge = numberProxy_le
  ∧ lit_lookaside_compare .le 1 2 = false ∧ npMethodSem .le 1 2 = true
  ∧ lit_lookaside_compare .ge 1 2 = true ∧ npMethodSem .ge 1 2 = false :=
  ⟨rfl, rfl, by decide, by decide, by decide, by decide⟩

/-- C6 (amended): the prologue-hoist pass appends the used-input proxies
as `unpack_trivial` symbols at the end of the computation trace and
rotates exactly those symbols to the front, so the hoisted trace is the
unpack symbols prepended to the original bound-symbol list. -/
theorem hoist_pass_prepends (bsyms : List BoundSymbol) (outs : List Proxy) :
    hoist_unpacks bsyms outs = outs.map unpackTrivialSym ++ bsyms := by
  unfold hoist_unpacks pysliceLast pysliceDropLast
  by_cases h : outs.length = 0
  · have h0 : outs = [] := List.length_eq_zero.mp h
    subst h0
    simp
  · simp only [if_neg h]
    rw [List.length_append, List.length_map, Nat.add_sub_cancel,
        List.drop_left, List.take_left]

/-- C6 (counterexample): applying the hoist pass a second time to an
already-hoisted trace appends and rotates a fresh copy of the unpack
symbols, so the bound-symbol list changes. -/
theorem hoist_pass_reapply_changes :
    hoist_unpacks (hoist_unpacks wHoistTrace wHoistOuts) wHoistOuts ≠
      hoist_unpacks wHoistTrace wHoistOuts :=
  fun h => absurd (congrArg List.length h) (by decide)

set_option maxHeartbeats 2000000 in
/-- C9: the stack-effect function returns a (pop, push) pair for every
opcode in the supported set and raises `ValueError` for every opcode name
outside it. -/
theorem stack_effect_detail_total (opname : String) (oparg : Nat) (jump : Bool) :
    (opname ∈ supportedOpnames → ∃ eff, stack_effect_detail opname oparg jump = .ok eff)
  ∧ (opname ∉ supportedOpnames →
      stack_effect_detail opname oparg jump = .error ("Invalid opname " ++ opname)) := by
  constructor
  · intro hmem
    unfold stack_effect_detail
    rcases List.mem_append.mp hmem with hfix | hspec
    · obtain ⟨v, hv⟩ := mem_keys_lookup _ _ hfix
      rw [hv]
      exact ⟨v, rfl⟩
    · simp only [List.mem_cons, List.mem_singleton, List.not_mem_nil, or_false] at hspec
      rcases hspec with rfl|rfl|rfl|rfl|rfl|rfl|rfl|rfl|rfl|rfl|rfl|rfl|rfl|rfl|rfl|rfl|rfl|rfl|rfl|rfl|rfl|rfl <;>
        (rw [lookup_none_of_not_mem_keys _ _ (by decide)]; exact ⟨_, rfl⟩)
  · intro hmem
    have hfix : opname ∉ fixed_stack_effects_detail.map Prod.fst :=
      fun hc => hmem (List.mem_append.mpr (Or.inl hc))
    unfold stack_effect_detail
    rw [lookup_none_of_not_mem_keys _ _ hfix]
    have hs : opname ∉
        (["ROT_N", "BUILD_TUPLE", "BUILD_LIST", "BUILD_SET", "BUILD_STRING",
          "BUILD_MAP", "BUILD_CONST_KEY_MAP", "JUMP_IF_TRUE_OR_POP",
          "JUMP_IF_FALSE_OR_POP", "SETUP_FINALLY", "RAISE_VARARGS",
          "CALL_FUNCTION", "CALL_METHOD", "CALL_FUNCTION_KW", "CALL_FUNCTION_EX",
          "MAKE_FUNCTION", "BUILD_SLICE", "SETUP_ASYNC_WITH", "FORMAT_VALUE",
          "UNPACK_SEQUENCE", "UNPACK_EX", "FOR_ITER"] : List String) :=
      fun hc => hmem (List.mem_append.mpr (Or.inr hc))
    have hne : ∀ s : String,
        s ∈ (["ROT_N", "BUILD_TUPLE", "BUILD_LIST", "BUILD_SET", "BUILD_STRING",
          "BUILD_MAP", "BUILD_CONST_KEY_MAP", "JUMP_IF_TRUE_OR_POP",
          "JUMP_IF_FALSE_OR_POP", "SETUP_FINALLY", "RAISE_VARARGS",
          "CALL_FUNCTION", "CALL_METHOD", "CALL_FUNCTION_KW", "CALL_FUNCTION_EX",
          "MAKE_FUNCTION", "BUILD_SLICE", "SETUP_ASYNC_WITH", "FORMAT_VALUE",
          "UNPACK_SEQUENCE", "UNPACK_EX", "FOR_ITER"] : List String) → opname ≠ s :=
      fun s hsmem e => hs (by rw [e]; exact hsmem)
    rw [if_neg (hne _ (by decide)),
        if_neg (by rintro (e|e|e|e) <;> exact hne _ (by decide) e),
        if_neg (hne _ (by decide)),
        if_neg (hne _ (by decide)),
        if_neg (by rintro (e|e) <;> exact hne _ (by decide) e),
        if_neg (hne _ (by decide)),
        if_neg (hne _ (by decide)),
        if_neg (hne _ (by decide)),
        if_neg (hne _ (by decide)),
        if_neg (hne _ (by decide)),
        if_neg (hne _ (by decide)),
        if_neg (hne _ (by decide)),
        if_neg (hne _ (by decide)),
        if_neg (hne _ (by decide)),
        if_neg (hne _ (by decide)),
        if_neg (hne _ (by decide)),
        if_neg (hne _ (by decide)),
        if_neg (hne _ (by decide))]

/-- Witness for `stack_effect_detail_total`: `CALL_FUNCTION` is supported
and yields an effect; `FROBNICATE` is unsupported and raises. -/
theorem stack_effect_detail_total_witness :
    ("CALL_FUNCTION" ∈ supportedOpnames
      ∧ ∃ eff, stack_effect_detail "CALL_FUNCTION" 3 false = .ok eff)
  ∧ ("FROBNICATE" ∉ supportedOpnames
      ∧ stack_effect_detail "FROBNICATE" 0 false = .error "Invalid opname FROBNICATE") :=
  ⟨⟨by decide, (stack_effect_detail_total "CALL_FUNCTION" 3 false).1 (by decide)⟩,
   ⟨by decide, (stack_effect_detail_total "FROBNICATE" 0 false).2 (by decide)⟩⟩

lemma seenName_nil (p : Proxy) : seenName [] p = false := rfl

lemma foldl_dedup_filter_history (l : List Proxy) :
    ∀ acc, l.foldl (fun acc2 p =>
        if p.history.isSome then (if seenName acc2 p then acc2 else acc2 ++ [p]) else acc2) acc
      = (l.filter (fun p => p.history.isSome)).foldl
          (fun acc2 p => if seenName acc2 p then acc2 else acc2 ++ [p]) acc := by
  induction l with
  | nil => intro acc; rfl
  | cons p rest ih =>
    intro acc
    by_cases hp : p.history.isSome = true
    · simp only [List.foldl_cons, List.filter_cons, hp, if_true]
      exact ih _
    · simp only [Bool.not_eq_true] at hp
      simp only [List.foldl_cons, List.filter_cons, hp]
      simpa using ih acc

lemma gci_eq_foldl_used (trace : List BoundSymbol) :
    get_computation_inputs trace
      = (used_input_proxies trace).foldl
          (fun acc2 p => if seenName acc2 p then acc2 else acc2 ++ [p]) [] := by
  suffices h : ∀ acc, trace.foldl (fun acc b =>
      b.flatProxyArgs.foldl (fun acc2 p =>
        if p.history.isSome then (if seenName acc2 p then acc2 else acc2 ++ [p]) else acc2) acc) acc
    = (used_input_proxies trace).foldl
        (fun acc2 p => if seenName acc2 p then acc2 else acc2 ++ [p]) acc by
    exact h []
  induction trace with
  | nil => intro acc; rfl
  | cons b rest ih =>
    intro acc
    simp only [List.foldl_cons]
    rw [ih, foldl_dedup_filter_history]
    unfold used_input_proxies
    rw [List.flatMap_cons, List.foldl_append]

lemma foldl_dedup_eq_append_dedupNew (l : List Proxy) :
    ∀ acc, l.foldl (fun acc2 p => if seenName acc2 p then acc2 else acc2 ++ [p]) acc
      = acc ++ dedupNew acc l := by
  induction l with
  | nil => intro acc; simp [dedupNew]
  | cons p rest ih =>
    intro acc
    by_cases hp : seenName acc p = true
    · simp only [List.foldl_cons, dedupNew, hp, if_true]
      exact ih acc
    · simp only [Bool.not_eq_true] at hp
      simp only [List.foldl_cons, dedupNew, hp, if_false, Bool.false_eq_true]
      rw [ih (acc ++ [p])]
      simp

lemma filter_seen_append (acc : List Proxy) (p : Proxy) (rest : List Proxy) :
    rest.filter (fun q => !(seenName (acc ++ [p]) q))
      = (rest.filter (fun q => !(seenName acc q))).filter (fun q => q.name ≠ p.name) := by
  rw [List.filter_filter]
  apply List.filter_congr
  intro q _
  simp only [seenName, List.any_append, List.any_cons, List.any_nil, Bool.or_false,
    Bool.not_or, decide_not]
  have hsym : decide (p.name = q.name) = decide (q.name = p.name) := decide_eq_decide.mpr eq_comm
  rw [hsym]
  exact Bool.and_comm _ _

lemma dedupNew_eq_dedup_first (l : List Proxy) :
    ∀ acc, dedupNew acc l = dedup_first_by_name (l.filter (fun q => !(seenName acc q))) := by
  induction l with
  | nil => intro acc; simp [dedupNew, dedup_first_by_name]
  | cons p rest ih =>
    intro acc
    by_cases hp : seenName acc p = true
    · simp only [dedupNew, hp, if_true, List.filter_cons, Bool.not_true, Bool.false_eq_true,
        if_false]
      exact ih acc
    · simp only [Bool.not_eq_true] at hp
      simp only [dedupNew, hp, Bool.false_eq_true, if_false, List.filter_cons, Bool.not_false,
        if_true]
      rw [dedup_first_by_name, ih (acc ++ [p]), filter_seen_append]

lemma gci_eq_dedup_first (trace : List BoundSymbol) :
    get_computation_inputs trace = dedup_first_by_name (used_input_proxies trace) := by
  have hfilter : (used_input_proxies trace).filter (fun q => !(seenName [] q))
      = used_input_proxies trace :=
    List.filter_eq_self.mpr (fun a _ => by simp [seenName_nil])
  rw [gci_eq_foldl_used, foldl_dedup_eq_append_dedupNew, dedupNew_eq_dedup_first,
    List.nil_append, hfilter]

lemma dedup_first_name_mem (l : List Proxy) (nm : String) :
    nm ∈ (dedup_first_by_name l).map Proxy.name ↔ nm ∈ l.map Proxy.name := by
  induction l using dedup_first_by_name.induct with
  | case1 => simp [dedup_first_by_name]
  | case2 p rest ih =>
    rw [dedup_first_by_name]
    simp only [List.map_cons, List.mem_cons, ih, List.mem_map, List.mem_filter]
    constructor
    · rintro (rfl | ⟨q, ⟨hq, _⟩, rfl⟩)
      · exact Or.inl rfl
      · exact Or.inr ⟨q, hq, rfl⟩
    · rintro (rfl | ⟨q, hq, rfl⟩)
      · exact Or.inl rfl
      · by_cases hqp : q.name = p.name
        · exact Or.inl hqp
        · exact Or.inr ⟨q, ⟨hq, by simpa using hqp⟩, rfl⟩

lemma dedup_first_name_nodup (l : List Proxy) :
    ((dedup_first_by_name l).map Proxy.name).Nodup := by
  induction l using dedup_first_by_name.induct with
  | case1 => simp [dedup_first_by_name]
  | case2 p rest ih =>
    rw [dedup_first_by_name]
    simp only [List.map_cons, List.nodup_cons]
    refine ⟨fun hc => ?_, ih⟩
    rw [dedup_first_name_mem] at hc
    obtain ⟨q, hq, hqn⟩ := List.mem_map.mp hc
    have := (List.mem_filter.mp hq).2
    simp [hqn] at this

lemma unpack_ok_id (fuel : Nat) (p : Proxy) (st : UState) (q : Proxy) (st' : UState)
    (h : unpack fuel p st = .ok (q, st')) : q = p := by
  unfold unpack at h
  split at h
  · exact absurd h (by simp)
  · split at h
    · injection h with h1
      injection h1 with h2 h3
      exact h2.symm
    · split at h
      · exact absurd h (by simp)
      · split at h <;>
          (injection h with h1; injection h1 with h2 h3; exact h2.symm)

lemma unpack_loop_outs (fuel : Nat) :
    ∀ (l : List Proxy) (st : UState) (outs : List Proxy) (st' : UState),
      unpack_loop fuel l st = .ok (outs, st') → outs = l := by
  intro l
  induction l with
  | nil =>
    intro st outs st' h
    simp only [unpack_loop] at h
    injection h with h1
    injection h1 with h2 h3
    exact h2.symm
  | cons v rest ih =>
    intro st outs st' h
    simp only [unpack_loop] at h
    split at h
    · exact absurd h (by simp)
    · rename_i p st1 heq
      split at h
      · exact absurd h (by simp)
      · rename_i ps st2 heq2
        injection h with h1
        injection h1 with h2 h3
        have hp := unpack_ok_id fuel v st _ _ heq
        have hps := ih _ _ _ heq2
        rw [← h2, hp, hps]

/-- C1: whenever prologue synthesis succeeds, the prologue trace's final
bound symbol is a `python_return` binding the tuple of exactly the
prologue outputs; those outputs are `get_computation_inputs` of the
computation trace, which is the list of proxies appearing as
computation-trace bound-symbol arguments with non-null history, each
occurring once (proxy names are unique), in the order of their first use. -/
theorem prologue_final_return_used_inputs (fuel : Nat) (constraints : List Constraint)
    (trace : List BoundSymbol) (st : UState) (outs : List Proxy) (st' : UState)
    (h : unpack_inputs fuel constraints (get_computation_inputs trace) st = .ok (outs, st')) :
    st'.syms.getLast? = some { prim := .python_return, args := [.tupleV outs], output := none }
  ∧ outs = get_computation_inputs trace
  ∧ get_computation_inputs trace = dedup_first_by_name (used_input_proxies trace)
  ∧ ((get_computation_inputs trace).map Proxy.name).Nodup
  ∧ (∀ nm, nm ∈ (get_computation_inputs trace).map Proxy.name ↔
        nm ∈ (used_input_proxies trace).map Proxy.name) := by
  unfold unpack_inputs at h
  split at h
  · exact absurd h (by simp)
  · rename_i r1 heq1
    obtain ⟨outs0, st1⟩ := r1
    split at h
    · exact absurd h (by simp)
    · rename_i st2 heq2
      injection h with h1
      injection h1 with h2 h3
      subst h2
      refine ⟨?_, ?_, gci_eq_dedup_first trace, ?_, ?_⟩
      · rw [← h3]
        exact List.getLast?_concat _
      · exact unpack_loop_outs fuel _ _ _ _ heq1
      · rw [gci_eq_dedup_first]
        exact dedup_first_name_nodup _
      · intro nm
        rw [gci_eq_dedup_first]
        exact dedup_first_name_mem _ nm

/-- Witness for `prologue_final_return_used_inputs` on the two-symbol
computation trace `wTraceC1`. -/
theorem prologue_final_return_used_inputs_witness :
    (unpack_inputs 3 [] (get_computation_inputs wTraceC1) wSt0 = .ok ([wProxyA], wStC1))
  ∧ wStC1.syms.getLast? =
      some { prim := .python_return, args := [.tupleV [wProxyA]], output := none } :=
  ⟨rfl, (prologue_final_return_used_inputs 3 [] wTraceC1 wSt0 [wProxyA] wStC1 rfl).1⟩


lemma fp_syms_mono (p : Proxy) : ∀ fuel : Nat,
    (∀ pr no st v st1, from_provenance p fuel pr no st = .ok (v, st1) → ∃ δ, st1.syms = st.syms ++ δ)
  ∧ (∀ l st vs st1, from_provenance_list p fuel l st = .ok (vs, st1) → ∃ δ, st1.syms = st.syms ++ δ) := by
  intro fuel
  induction fuel with
  | zero =>
    constructor
    · intro pr no st v st1 h
      exact absurd h (by simp [from_provenance])
    · intro l st vs st1 h
      cases l with
      | nil =>
        simp only [from_provenance_list] at h
        injection h with h1
        injection h1 with h2 h3
        exact ⟨[], by rw [← h3]; simp⟩
      | cons a as => exact absurd h (by simp [from_provenance_list])
  | succ n ihn =>
    obtain ⟨ihf, ihl⟩ := ihn
    constructor
    · intro pr no st v st1 h
      simp only [from_provenance] at h
      split at h
      · injection h with h1
        injection h1 with h2 h3
        exact ⟨[], by rw [← h3]; simp⟩
      · split at h
        · exact absurd h (by simp)
        · rename_i res st1' heqBody
          rw [Except.ok.injEq, Prod.mk.injEq] at h
          obtain ⟨h2, h3⟩ := h
          have hsyms : st1.syms = st1'.syms := by rw [← h3]
          rw [hsyms]
          clear h3 h2
          split at heqBody
          · rw [Except.ok.injEq, Prod.mk.injEq] at heqBody
            obtain ⟨e1, e2⟩ := heqBody
            exact ⟨_, by rw [← e2]⟩
          · rw [Except.ok.injEq, Prod.mk.injEq] at heqBody
            obtain ⟨e1, e2⟩ := heqBody
            exact ⟨_, by rw [← e2]⟩
          · rw [Except.ok.injEq, Prod.mk.injEq] at heqBody
            obtain ⟨e1, e2⟩ := heqBody
            exact ⟨_, by rw [← e2]⟩
          · -- LOAD_ATTR
            split at heqBody
            · exact Except.noConfusion heqBody
            · rename_i vs stx heqL
              split at heqBody
              · rw [Except.ok.injEq, Prod.mk.injEq] at heqBody
                obtain ⟨e1, e2⟩ := heqBody
                obtain ⟨d1, hd1⟩ := ihl _ _ _ _ heqL
                exact ⟨_, by rw [← e2, hd1, List.append_assoc]⟩
              · exact Except.noConfusion heqBody
          · -- CONSTANT
            split at heqBody
            · rw [Except.ok.injEq, Prod.mk.injEq] at heqBody
              obtain ⟨e1, e2⟩ := heqBody
              exact ⟨[], by rw [← e2]; simp⟩
            · rw [Except.ok.injEq, Prod.mk.injEq] at heqBody
              obtain ⟨e1, e2⟩ := heqBody
              exact ⟨[], by rw [← e2]; simp⟩
            · exact Except.noConfusion heqBody
          · -- BINARY_SUBSCR
            split at heqBody
            · exact Except.noConfusion heqBody
            · rename_i vs stx heqL
              split at heqBody
              · split at heqBody
                · rw [Except.ok.injEq, Prod.mk.injEq] at heqBody
                  obtain ⟨e1, e2⟩ := heqBody
                  obtain ⟨d1, hd1⟩ := ihl _ _ _ _ heqL
                  exact ⟨_, by rw [← e2, hd1, List.append_assoc]⟩
                · rw [Except.ok.injEq, Prod.mk.injEq] at heqBody
                  obtain ⟨e1, e2⟩ := heqBody
                  obtain ⟨d1, hd1⟩ := ihl _ _ _ _ heqL
                  exact ⟨_, by rw [← e2, hd1, List.append_assoc]⟩
                · exact Except.noConfusion heqBody
              · exact Except.noConfusion heqBody
          · -- OPAQUE
            split at heqBody
            · split at heqBody
              · exact Except.noConfusion heqBody
              · split at heqBody
                · exact Except.noConfusion heqBody
                · split at heqBody
                  · exact Except.noConfusion heqBody
                  · split at heqBody
                    · split at heqBody
                      · exact ihf _ _ _ _ _ heqBody
                      · exact Except.noConfusion heqBody
                    · split at heqBody
                      · split at heqBody
                        · split at heqBody
                          · exact ihf _ _ _ _ _ heqBody
                          · exact Except.noConfusion heqBody
                        · exact Except.noConfusion heqBody
                      · exact Except.noConfusion heqBody
            · exact Except.noConfusion heqBody
          · exact Except.noConfusion heqBody
    · intro l st vs st1 h
      cases l with
      | nil =>
        simp only [from_provenance_list] at h
        injection h with h1
        injection h1 with h2 h3
        exact ⟨[], by rw [← h3]; simp⟩
      | cons a as =>
        simp only [from_provenance_list] at h
        split at h
        · exact absurd h (by simp)
        · rename_i v1 st2 heq1
          split at h
          · exact absurd h (by simp)
          · rename_i vs2 st3 heq2
            injection h with h1
            injection h1 with h2 h3
            obtain ⟨d1, hd1⟩ := ihf a true st v1 st2 heq1
            obtain ⟨d2, hd2⟩ := ihl as st2 vs2 st3 heq2
            exact ⟨d1 ++ d2, by rw [← h3, hd2, hd1, List.append_assoc]⟩

lemma unpack_syms_mono (fuel : Nat) (p : Proxy) (st : UState) (q : Proxy) (st' : UState)
    (h : unpack fuel p st = .ok (q, st')) : ∃ δ, st'.syms = st.syms ++ δ := by
  unfold unpack at h
  split at h
  · exact absurd h (by simp)
  · split at h
    · rw [Except.ok.injEq, Prod.mk.injEq] at h
      obtain ⟨e1, e2⟩ := h
      exact ⟨[], by rw [← e2]; simp⟩
    · split at h
      · exact Except.noConfusion h
      · rename_i v st1 heqF
        obtain ⟨d1, hd1⟩ := (fp_syms_mono p fuel).1 _ _ _ _ _ heqF
        have hd1' : st1.syms = st.syms ++ d1 := by
          by_cases hn : p.name ∈ st.names
          · rw [if_pos hn] at hd1; exact hd1
          · rw [if_neg hn] at hd1; exact hd1
        split at h
        · rw [Except.ok.injEq, Prod.mk.injEq] at h
          obtain ⟨e1, e2⟩ := h
          exact ⟨_, by rw [← e2, hd1', List.append_assoc]⟩
        · rw [Except.ok.injEq, Prod.mk.injEq] at h
          obtain ⟨e1, e2⟩ := h
          exact ⟨d1, by rw [← e2]; exact hd1'⟩

lemma unpack_loop_syms_mono (fuel : Nat) :
    ∀ (l : List Proxy) (st : UState) (outs : List Proxy) (st' : UState),
      unpack_loop fuel l st = .ok (outs, st') → ∃ δ, st'.syms = st.syms ++ δ := by
  intro l
  induction l with
  | nil =>
    intro st outs st' h
    simp only [unpack_loop] at h
    rw [Except.ok.injEq, Prod.mk.injEq] at h
    obtain ⟨e1, e2⟩ := h
    exact ⟨[], by rw [← e2]; simp⟩
  | cons v rest ih =>
    intro st outs st' h
    simp only [unpack_loop] at h
    split at h
    · exact Except.noConfusion h
    · rename_i q st1 heq1
      split at h
      · exact Except.noConfusion h
      · rename_i ps st2 heq2
        rw [Except.ok.injEq, Prod.mk.injEq] at h
        obtain ⟨e1, e2⟩ := h
        obtain ⟨d1, hd1⟩ := unpack_syms_mono fuel v st q st1 heq1
        obtain ⟨d2, hd2⟩ := ih st1 ps st2 heq2
        exact ⟨d1 ++ d2, by rw [← e2, hd2, hd1, List.append_assoc]⟩

/-- C4: during the prologue's input-unpacking loop, for a `TensorProxy`
input not yet unpacked, the `assert_tensor_metadata` guard over the
proxy's shape, device, dtype and requires-grad is the bound symbol
emitted immediately after that proxy's own unpack symbols, and all
symbols of later inputs are emitted after it. -/
theorem tensor_guard_immediately_after_unpack (fuel : Nat) (p : Proxy) (m : TensorMeta)
    (st st' st2 : UState) (out : Proxy) (rest outs : List Proxy)
    (hk : p.kind = .tensor m)
    (hfresh : p.name ∉ st.already)
    (hok : unpack fuel p st = .ok (out, st'))
    (hok2 : unpack_loop fuel rest st' = .ok (outs, st2)) :
    (∃ δ, st'.syms = st.syms ++ δ ++
        [{ prim := .assert_tensor_metadata,
           args := [.proxyV p, .shapeV m.shape, .strV m.device, .strV m.dtype,
                    .boolV m.requires_grad],
           output := none }])
  ∧ ∃ ε, st2.syms = st'.syms ++ ε := by
  refine ⟨?_, unpack_loop_syms_mono fuel rest st' outs st2 hok2⟩
  unfold unpack at hok
  split at hok
  · exact absurd hok (by simp)
  · split at hok
    · exact absurd ‹p.name ∈ st.already› hfresh
    · split at hok
      · exact Except.noConfusion hok
      · rename_i v st1 heqF
        obtain ⟨d1, hd1⟩ := (fp_syms_mono p fuel).1 _ _ _ _ _ heqF
        have hd1' : st1.syms = st.syms ++ d1 := by
          by_cases hn : p.name ∈ st.names
          · rw [if_pos hn] at hd1; exact hd1
          · rw [if_neg hn] at hd1; exact hd1
        rw [hk] at hok
        rw [Except.ok.injEq, Prod.mk.injEq] at hok
        obtain ⟨e1, e2⟩ := hok
        exact ⟨d1, by rw [← e2]; simp only [hd1']⟩


/-- Witness for `tensor_guard_immediately_after_unpack` on the tensor
input `wProxyT` unpacked from the args root. -/
theorem tensor_guard_immediately_after_unpack_witness :
    (wProxyT.kind = .tensor { shape := [4, 4], device := "cpu", dtype := "float32", requires_grad := false })
  ∧ wProxyT.name ∉ wSt0.already
  ∧ unpack 3 wProxyT wSt0 = .ok (wProxyT, wStT)
  ∧ unpack_loop 3 [] wStT = .ok ([], wStT)
  ∧ (∃ δ, wStT.syms = wSt0.syms ++ δ ++
      [{ prim := .assert_tensor_metadata,
         args := [.proxyV wProxyT, .shapeV [4, 4], .strV "cpu", .strV "float32", .boolV false],
         output := none }]) :=
  ⟨rfl, by decide, rfl, rfl,
   (tensor_guard_immediately_after_unpack 3 wProxyT
      { shape := [4, 4], device := "cpu", dtype := "float32", requires_grad := false }
      wSt0 wStT wStT wProxyT [] [] rfl (by decide) rfl rfl).1⟩

/-- C5: `from_opaque` behavior during prologue synthesis.  An `OPAQUE`
record whose callee is a constant with `__name__` equal to
`"__getitem__"` is rewritten to a `BINARY_SUBSCR` record over the
container and index and recursed; one whose callee is the constant
descriptor function `GetSetDescriptorType.__get__` (applied to an object
and a getset descriptor) is rewritten to a `LOAD_ATTR` record and
recursed; a nonconstant callee raises `NotImplementedError`, as does any
other constant callee. -/
theorem opaque_provenance_rewrites (fuel : Nat) (st : UState) (p : Proxy) (no : Bool)
    (fnRec argsRec : ProvenanceRecord) (tailRecs : List ProvenanceRecord) (w : Option ConstVal)
    (hmemo : memoLookup st.memo (.mk .opaqueInst (fnRec :: argsRec :: tailRecs) w) = none) :
    (∀ (v : ConstVal) (idx obj : ProvenanceRecord),
      fnRec.inst = .constantInst → fnRec.value = some v → v.pyName = some "__getitem__" →
      argsRec.inputs = [idx, obj] →
      from_provenance p (fuel + 1) (.mk .opaqueInst (fnRec :: argsRec :: tailRecs) w) no st =
        (match from_provenance p fuel (.mk .binarySubscr [obj, idx] none) no st with
         | .error e => .error e
         | .ok (res, st1) =>
           .ok (res, { st1 with
             memo := (ProvenanceRecord.mk .opaqueInst (fnRec :: argsRec :: tailRecs) w, res)
               :: st1.memo })))
  ∧ (∀ (a0 objRec descRec : ProvenanceRecord) (attrName : String),
      fnRec.inst = .constantInst → fnRec.value = some .getsetGetFn →
      argsRec.inputs = [a0, objRec, descRec] →
      descRec.inst = .constantInst → descRec.value = some (.getset attrName) →
      from_provenance p (fuel + 1) (.mk .opaqueInst (fnRec :: argsRec :: tailRecs) w) no st =
        (match from_provenance p fuel
            (.mk .loadAttr [objRec, .mk .constantInst [] (some (.strV attrName))] none) false st with
         | .error e => .error e
         | .ok (res, st1) =>
           .ok (res, { st1 with
             memo := (ProvenanceRecord.mk .opaqueInst (fnRec :: argsRec :: tailRecs) w, res)
               :: st1.memo })))
  ∧ (fnRec.inst ≠ .constantInst →
      from_provenance p (fuel + 1) (.mk .opaqueInst (fnRec :: argsRec :: tailRecs) w) no st =
        .error (.notImplemented "unpacking from nonconstant opaque function"))
  ∧ (∀ (v : ConstVal) (nm : String),
      fnRec.inst = .constantInst → fnRec.value = some v → v.pyName = some nm →
      nm ≠ "__getitem__" → v ≠ .getsetGetFn →
      from_provenance p (fuel + 1) (.mk .opaqueInst (fnRec :: argsRec :: tailRecs) w) no st =
        .error (.notImplemented "unpacking from OPAQUE")) := by
  refine ⟨?_, ?_, ?_, ?_⟩
  · intro v idx obj h1 h2 h3 h4
    cases fnRec with
    | mk fi fin fv =>
      simp only [ProvenanceRecord.inst] at h1
      simp only [ProvenanceRecord.value] at h2
      subst h1
      subst h2
      cases argsRec with
      | mk ai ain av =>
        simp only [ProvenanceRecord.inputs] at h4
        subst h4
        simp only [from_provenance, hmemo]
        simp [PseudoInst.toName, ProvenanceRecord.inst, ProvenanceRecord.value,
          ProvenanceRecord.inputs, h3]
  · intro a0 objRec descRec attrName h1 h2 h3 h4 h5
    cases fnRec with
    | mk fi fin fv =>
      simp only [ProvenanceRecord.inst] at h1
      simp only [ProvenanceRecord.value] at h2
      subst h1
      subst h2
      cases argsRec with
      | mk ai ain av =>
        simp only [ProvenanceRecord.inputs] at h3
        subst h3
        cases descRec with
        | mk di din dv =>
          simp only [ProvenanceRecord.inst] at h4
          simp only [ProvenanceRecord.value] at h5
          subst h4
          subst h5
          simp only [from_provenance, hmemo]
          simp [PseudoInst.toName, ProvenanceRecord.inst, ProvenanceRecord.value,
            ProvenanceRecord.inputs, ConstVal.pyName]
  · intro h1
    cases fnRec with
    | mk fi fin fv =>
      simp only [ProvenanceRecord.inst] at h1
      simp only [from_provenance, hmemo]
      simp [PseudoInst.toName, ProvenanceRecord.inst, ProvenanceRecord.inputs,
        ProvenanceRecord.value, h1]
  · intro v nm h1 h2 h3 h4 h5
    cases fnRec with
    | mk fi fin fv =>
      simp only [ProvenanceRecord.inst] at h1
      simp only [ProvenanceRecord.value] at h2
      subst h1
      subst h2
      simp only [from_provenance, hmemo]
      simp [PseudoInst.toName, ProvenanceRecord.inst, ProvenanceRecord.value,
        ProvenanceRecord.inputs, h3, h4, h5]


/-- Witness for `opaque_provenance_rewrites`: the getitem rewrite on
`wOpaqueGetitem` and the unsupported error on `wOpaqueBad`. -/
theorem opaque_provenance_rewrites_witness :
    memoLookup wSt0.memo wOpaqueGetitem = none
  ∧ (from_provenance wProxyA 3 wOpaqueGetitem false wSt0 =
      (match from_provenance wProxyA 2 (.mk .binarySubscr [wProvArgs, wIdxRec] none) false wSt0 with
       | .error e => .error e
       | .ok (res, st1) => .ok (res, { st1 with memo := (wOpaqueGetitem, res) :: st1.memo })))
  ∧ from_provenance wProxyA 3 wOpaqueBad false wSt0 =
      .error (.notImplemented "unpacking from OPAQUE") :=
  ⟨rfl,
   (opaque_provenance_rewrites 2 wSt0 wProxyA false wFnGetitem wArgsRec [] none rfl).1
     (.func "__getitem__") wIdxRec wProvArgs rfl rfl rfl rfl,
   (opaque_provenance_rewrites 2 wSt0 wProxyA false (.mk .constantInst [] (some (.func "print")))
       wArgsRec [] none rfl).2.2.2 (.func "print") "print" rfl rfl rfl (by decide) (by decide)⟩

/-- C3 (counterexample): a wrapped number with `CONSTANT` provenance has
every provenance tag inside the safe-for-guarding set, yet the wrap
callback registers no proxy and records no guard constraint (and raises
no sharp edge): the `CONSTANT` branch passes before the number branch is
reached. -/
theorem wrap_const_number_not_proxied :
    provenanceSafe wConstNum.provenance = true
  ∧ (lit_wrap_callback 0 wConstNum).registeredProxy = none
  ∧ (lit_wrap_callback 0 wConstNum).newConstraints = []
  ∧ (lit_wrap_callback 0 wConstNum).sharpEdgeDesc = none :=
  ⟨rfl, rfl, rfl, rfl⟩

/-- C3 (amended): when the wrap callback receives a non-proxy number or
string whose provenance's top-level tag is not `CONSTANT`: if every tag
in the provenance's transitive closure lies in the safe-for-guarding
set, the value is proxied (with the provenance as history) and a guard
constraint is recorded (`check_number_type_and_value` for numbers,
`check_string_value` for strings); otherwise a sharp-edge event is
raised and no proxy or constraint is registered. -/
theorem wrap_number_string_guarding (fresh : Nat) (w : WrappedValue)
    (hnc : w.provenance.inst ≠ .constantInst) :
    (∀ n : Int, w.wvalue = .numV n →
      (provenanceSafe w.provenance = true →
        ∃ pxy, (lit_wrap_callback fresh w).registeredProxy = some pxy
          ∧ pxy.history = some w.provenance
          ∧ (lit_wrap_callback fresh w).newConstraints =
              [{ prim := .check_number_type_and_value, args := [.proxyV pxy, .intV n] }]
          ∧ (lit_wrap_callback fresh w).sharpEdgeDesc = none)
      ∧ (provenanceSafe w.provenance = false →
        (lit_wrap_callback fresh w).registeredProxy = none
          ∧ (lit_wrap_callback fresh w).newConstraints = []
          ∧ ∃ d, (lit_wrap_callback fresh w).sharpEdgeDesc = some d))
  ∧ (∀ s : String, w.wvalue = .strRV s →
      (provenanceSafe w.provenance = true →
        ∃ pxy, (lit_wrap_callback fresh w).registeredProxy = some pxy
          ∧ pxy.history = some w.provenance
          ∧ (lit_wrap_callback fresh w).newConstraints =
              [{ prim := .check_string_value, args := [.proxyV pxy, .strV s] }]
          ∧ (lit_wrap_callback fresh w).sharpEdgeDesc = none)
      ∧ (provenanceSafe w.provenance = false →
        (lit_wrap_callback fresh w).registeredProxy = none
          ∧ (lit_wrap_callback fresh w).newConstraints = []
          ∧ ∃ d, (lit_wrap_callback fresh w).sharpEdgeDesc = some d)) := by
  obtain ⟨wv, prov⟩ := w
  replace hnc : prov.inst ≠ .constantInst := hnc
  constructor
  · intro n hv
    replace hv : wv = .numV n := hv
    subst hv
    constructor
    · intro hsafe
      refine ⟨MesoCtx_proxify fresh (.numV n) none prov, ?_, rfl, ?_, ?_⟩ <;>
        simp [lit_wrap_callback, isCallableRV, isBasicContainer, hnc, hsafe]
    · intro hunsafe
      refine ⟨?_, ?_,
        "We are using a (non-const) value of type int, which is not identified as an input.", ?_⟩ <;>
        simp [lit_wrap_callback, isCallableRV, isBasicContainer, hnc, hunsafe]
  · intro s hv
    replace hv : wv = .strRV s := hv
    subst hv
    constructor
    · intro hsafe
      refine ⟨MesoCtx_proxify fresh (.strRV s) none prov, ?_, rfl, ?_, ?_⟩ <;>
        simp [lit_wrap_callback, isCallableRV, isBasicContainer, hnc, hsafe]
    · intro hunsafe
      refine ⟨?_, ?_,
        "We are using a (non-const) value of type str, which is not identified as an input.", ?_⟩ <;>
        simp [lit_wrap_callback, isCallableRV, isBasicContainer, hnc, hunsafe]

/-- Witness for `wrap_number_string_guarding`: an attribute-loaded number
is proxied and guarded; a number with a host-opcode provenance tag raises
a sharp edge instead. -/
theorem wrap_number_string_guarding_witness :
    (∃ pxy, (lit_wrap_callback 0 wAttrNum).registeredProxy = some pxy
      ∧ pxy.history = some wAttrNum.provenance
      ∧ (lit_wrap_callback 0 wAttrNum).newConstraints =
          [{ prim := .check_number_type_and_value, args := [.proxyV pxy, .intV 7] }]
      ∧ (lit_wrap_callback 0 wAttrNum).sharpEdgeDesc = none)
  ∧ ((lit_wrap_callback 0 wOpcodeNum).registeredProxy = none
      ∧ (lit_wrap_callback 0 wOpcodeNum).newConstraints = []
      ∧ ∃ d, (lit_wrap_callback 0 wOpcodeNum).sharpEdgeDesc = some d) :=
  ⟨((wrap_number_string_guarding 0 wAttrNum (by decide)).1 7 rfl).1 rfl,
   ((wrap_number_string_guarding 0 wOpcodeNum (by decide)).1 7 rfl).2 rfl⟩

/-- C10: every wrapped tensor is proxied (a `TensorProxy` carrying the
tensor's metadata and the wrapped value's provenance as history) and gets
a `check_tensor_shape_and_metadata` constraint, regardless of provenance
(including `CONSTANT`); a wrapped number or string whose provenance is
`CONSTANT` is never proxied and gets no constraint and no sharp edge. -/
theorem tensor_always_guarded_const_scalar_skipped :
    (∀ (fresh : Nat) (m : TensorMeta) (prov : ProvenanceRecord),
      ∃ pxy, (lit_wrap_callback fresh ⟨.tensorV m, prov⟩).registeredProxy = some pxy
        ∧ pxy.kind = .tensor m
        ∧ pxy.history = some prov
        ∧ (lit_wrap_callback fresh ⟨.tensorV m, prov⟩).newConstraints =
            [{ prim := .check_tensor_shape_and_metadata, args := [.proxyV pxy] }]
        ∧ (lit_wrap_callback fresh ⟨.tensorV m, prov⟩).sharpEdgeDesc = none)
  ∧ (∀ (fresh : Nat) (n : Int) (prov : ProvenanceRecord), prov.inst = .constantInst →
      lit_wrap_callback fresh ⟨.numV n, prov⟩ =
        { registeredProxy := none, newConstraints := [], sharpEdgeDesc := none })
  ∧ (∀ (fresh : Nat) (s : String) (prov : ProvenanceRecord), prov.inst = .constantInst →
      lit_wrap_callback fresh ⟨.strRV s, prov⟩ =
        { registeredProxy := none, newConstraints := [], sharpEdgeDesc := none }) := by
  refine ⟨?_, ?_, ?_⟩
  · intro fresh m prov
    exact ⟨MesoCtx_proxify fresh (.tensorV m) none prov, rfl, rfl, rfl, rfl, rfl⟩
  · intro fresh n prov h
    simp [lit_wrap_callback, h]
  · intro fresh s prov h
    simp [lit_wrap_callback, h]

/-- Witness for `tensor_always_guarded_const_scalar_skipped`: a constant
number and a constant string are left unproxied and unguarded, while a
constant-provenance tensor is still proxied and guarded. -/
theorem tensor_always_guarded_const_scalar_skipped_witness :
    lit_wrap_callback 0 wConstStr =
      { registeredProxy := none, newConstraints := [], sharpEdgeDesc := none }
  ∧ (∃ pxy, (lit_wrap_callback 0 wConstTensor).registeredProxy = some pxy
      ∧ (lit_wrap_callback 0 wConstTensor).newConstraints =
          [{ prim := .check_tensor_shape_and_metadata, args := [.proxyV pxy] }]) :=
  ⟨(tensor_always_guarded_const_scalar_skipped).2.2 0 "cpu"
      (.mk .constantInst [] (some (.strV "cpu"))) rfl,
   ⟨MesoCtx_proxify 0 wConstTensor.wvalue none wConstTensor.provenance, rfl, rfl⟩⟩

end ThunderJit
